import Mathlib

/-!
Shallow embedding of ste/xfer-localToBlockBlob.go (azcopy chunked-upload
engine): the LocalToBlockBlob planner/scheduler, the block-blob and
page-blob chunk workers, and the whole-object PutBlob path.  External
collaborator calls (job part transfer manager, azblob network client) are
recorded as events in a trace; outcomes of remote calls are supplied by an
oracle environment, making every execution path a concrete trace.
-/

namespace AzCopy

/-- Modelled from the spec (constant of the azblob dependency, not under
src/): the fixed page unit P of a page blob, 512 bytes. -/
def pageBlobPageBytes : Nat := 512

/-- Modelled from the spec (constant of the common package, not under
src/): the maximum page-blob chunk size, 4 MB, named
DefaultPageBlobChunkSize in the code's comment "maximum page size i.e 4 MB". -/
def defaultPageBlobChunkSize : Nat := 4 * 1024 * 1024

/-- Case folding of one ASCII character, modelling the per-character
comparison done by Go strings.EqualFold on ASCII input. -/
def foldChar (c : Char) : Char := c.toLower

/-- Go strings.EqualFold restricted to ASCII: equal length and equal
characters up to case. -/
def eqFold (a b : List Char) : Bool :=
  a.length == b.length && (List.zip a b).all fun p => foldChar p.1 == foldChar p.2

/-- The EndsWith closure of LocalToBlockBlob (line 60): len(s) >= len(t)
and EqualFold of the suffix, applied to t = ".vhd". -/
def endsWithVhd (s : List Char) : Bool :=
  decide (4 ≤ s.length) && eqFold (s.drop (s.length - 4)) ['.', 'v', 'h', 'd']

/-- The chunk-size clamp of the page-blob branch (lines 134-137):
if chunkSize > DefaultPageBlobChunkSize or chunkSize is not a multiple of
512, use DefaultPageBlobChunkSize, else keep chunkSize. -/
def effectivePageChunkSize (c : Nat) : Nat :=
  if defaultPageBlobChunkSize < c ∨ c % pageBlobPageBytes ≠ 0 then
    defaultPageBlobChunkSize
  else c

/-- The page chunk size as the spec's words describe it (section 4.1 rule 2):
clamp to min(C, page-aligned max) and round down to a multiple of P when C
is not already a multiple of P.  Stated only for comparison with
effectivePageChunkSize, which is translated from the source. -/
def specPageChunkSize (c : Nat) : Nat :=
  let m := min c defaultPageBlobChunkSize
  if m % pageBlobPageBytes = 0 then m else m - m % pageBlobPageBytes

/-- The chunk-count formula of lines 182-184 and 215-218 before the uint32
conversion: blobSize/chunkSize when the division is exact, else one more. -/
def ceilDivGo (s c : Nat) : Nat :=
  if s % c == 0 then s / c else s / c + 1

/-- The value actually passed to SetNumberOfChunks: the Go code converts
the int64 ceiling division to uint32, truncating modulo 2^32. -/
def declaredChunks (s c : Nat) : Nat := ceilDivGo s c % 2 ^ 32

/-- The scheduling loops of lines 197-205 and 239-251: starting at
startIndex 0 and stepping by the chunk size c, emit (offset, length) pairs
where the length is c except the last chunk gets S - offset.  Fuel bounds
the recursion; fuel S suffices whenever c >= 1. -/
def chunksAux (S c : Nat) : Nat → Nat → List (Nat × Nat)
  | 0, _ => []
  | fuel + 1, start =>
    if start < S then
      (start, if S < start + c then S - start else c) :: chunksAux S c fuel (start + c)
    else []

/-- The full list of scheduled chunk descriptors for source size S and
chunk size c. -/
def chunksList (S c : Nat) : List (Nat × Nat) := chunksAux S c S 0

/-- Offsets start at the given position, each descriptor has positive
length, and each next offset is the previous offset plus its length:
contiguous, non-overlapping coverage. -/
def contiguousFromB : Nat → List (Nat × Nat) → Bool
  | _, [] => true
  | start, d :: rest =>
    (d.1 == start) && (d.2 != 0) && contiguousFromB (d.1 + d.2) rest

/-- Transfer status values used by this file (from common.ETransferStatus):
started is the in-progress state; failed, blobAlreadyExists and
blobTierFailure are the failure variants. -/
inductive TStatus
  | started
  | success
  | failed
  | blobAlreadyExists
  | blobTierFailure
  deriving DecidableEq

/-- Modelled from the spec (common.ETransferStatus, not under src/): the
numeric encoding in which, per the code's comment at line 291, a value <= 0
means the transfer did not succeed; failure variants are negative and
success is positive. -/
def statusVal : TStatus → Int
  | .started => 1
  | .success => 2
  | .failed => -1
  | .blobAlreadyExists => -2
  | .blobTierFailure => -3

/-- One observable call into a collaborator (job part transfer manager or
azblob client), recorded in program order. -/
inductive Event
  | addBytes (n : Nat)
  | reportTransferDone
  | reportChunkDone (last : Bool)
  | setStatus (s : TStatus)
  | setNumChunks (n : Nat)
  | scheduleChunk (off len : Nat)
  | unmap
  | cancel
  | getProperties
  | openFile
  | pageCreate
  | setTier
  | putBlob
  | stageBlock (off len : Nat)
  | commitBlockList
  | uploadPages (off len : Nat)
  | deleteBlob
  | panicCall
  deriving DecidableEq

def Event.isUnmap : Event → Bool
  | .unmap => true
  | _ => false

def Event.isAddBytes : Event → Bool
  | .addBytes _ => true
  | _ => false

def Event.isSetStatus : Event → Bool
  | .setStatus _ => true
  | _ => false

def Event.isReportDone : Event → Bool
  | .reportTransferDone => true
  | _ => false

def Event.isSchedule : Event → Bool
  | .scheduleChunk _ _ => true
  | _ => false

def Event.isChunkDoneLast : Event → Bool
  | .reportChunkDone b => b
  | _ => false

def Event.isPanic : Event → Bool
  | .panicCall => true
  | _ => false

/-- Total of all AddToBytesDone payloads in a trace. -/
def sumBytes (t : List Event) : Nat :=
  (t.map fun e => match e with | .addBytes n => n | _ => 0).sum

/-- Oracle for one chunk worker execution: outcomes of the cancellation
checks and of the remote calls it may issue. -/
structure ChunkOracle where
  canceledAtStart : Bool
  writeErr : Bool
  canceledAtErr : Bool
  canceledAtLast : Bool
  commitErr : Bool
  tierSome : Bool
  tierErr : Bool
  deriving DecidableEq

/-- The transferDone closure of blockBlobUploadFunc (lines 287-303): unmap
the source, delete the blob when the transfer status is <= 0 (uncommitted
blocks may remain), then report the transfer done. -/
def transferDoneB (st : TStatus) : List Event :=
  [Event.unmap] ++
  (if statusVal st ≤ 0 then [Event.deleteBlob] else []) ++
  [Event.reportTransferDone]

/-- The body of blockBlobUploadFunc (lines 260-409) for one chunk: the
cancellation fast path, the StageBlock call with its error handling, byte
accounting, the ReportChunkDone completion check (its result supplied as
the last argument), and the epilogue (commit, tier set, status, cleanup)
run by the last chunk.  Returns the trace and the transfer status after
this chunk. -/
def blockBlobChunk (o : ChunkOracle) (off len : Nat) (last : Bool)
    (st : TStatus) : List Event × TStatus :=
  if o.canceledAtStart then
    ([Event.addBytes len, Event.reportChunkDone last] ++
      (if last then transferDoneB st else []), st)
  else if o.writeErr then
    let st' := if o.canceledAtErr then st else TStatus.failed
    ([Event.stageBlock off len] ++
      (if o.canceledAtErr then []
       else [Event.cancel, Event.setStatus TStatus.failed]) ++
      [Event.addBytes len, Event.reportChunkDone last] ++
      (if last then transferDoneB st' else []), st')
  else
    let pre := [Event.stageBlock off len, Event.addBytes len,
                Event.reportChunkDone last]
    if last then
      if o.canceledAtLast then (pre ++ transferDoneB st, st)
      else if o.commitErr then
        (pre ++ [Event.commitBlockList, Event.setStatus TStatus.failed] ++
          transferDoneB TStatus.failed, TStatus.failed)
      else
        (pre ++ [Event.commitBlockList] ++
          (if o.tierSome then
            (if o.tierErr then
              [Event.setTier, Event.setStatus TStatus.blobTierFailure]
             else [Event.setTier])
           else []) ++
          [Event.setStatus TStatus.success] ++ transferDoneB TStatus.success,
         TStatus.success)
    else (pre, st)

/-- The int64 word read at a byte offset by the unsafe slice
reinterpretation of line 559: the little-endian composition of 8 source
bytes; the word is nonzero exactly when its bit pattern is, and the byte
values are below 256 so the composition stays below 2^64. -/
def int64At (data : Nat → Nat) (base : Nat) : Nat :=
  data base + 256 * (data (base + 1) + 256 * (data (base + 2) + 256 *
    (data (base + 3) + 256 * (data (base + 4) + 256 * (data (base + 5) +
      256 * (data (base + 6) + 256 * data (base + 7)))))))

/-- The zero scan of lines 559-571: reinterpret the chunk as
len/8 int64 words and report whether every word is zero (the loop breaks
at the first nonzero word, which computes exactly this conjunction).
Bytes beyond offset 8*(len/8) are never inspected. -/
def allBytesZero (data : Nat → Nat) (off len : Nat) : Bool :=
  (List.range (len / 8)).all fun i => int64At data (off + 8 * i) == 0

/-- The pageDone closure of pageBlobUploadFunc (lines 525-547): account the
page bytes, report the chunk done, and if this was the last page set the
status to Success, unmap, delete the page blob when the status read back
is <= 0 (it never is, having just been set to Success), and report the
transfer done. -/
def pageDoneEvents (len : Nat) (last : Bool) : List Event :=
  [Event.addBytes len, Event.reportChunkDone last] ++
  (if last then
    [Event.setStatus TStatus.success, Event.unmap] ++
    (if statusVal TStatus.success ≤ 0 then [Event.deleteBlob] else []) ++
    [Event.reportTransferDone]
   else [])

/-- The body of pageBlobUploadFunc (lines 498-607) for one page range: the
cancellation fast path, the all-zero scan that skips the remote write, the
UploadPages call with its error handling, and pageDone.  Returns the trace
and the transfer status after this chunk (pageDone overwrites it with
Success on the last page). -/
def pageBlobChunk (o : ChunkOracle) (off len : Nat) (data : Nat → Nat)
    (last : Bool) (st : TStatus) : List Event × TStatus :=
  let stDone := fun s => if last then TStatus.success else s
  if o.canceledAtStart then
    (pageDoneEvents len last, stDone st)
  else if allBytesZero data off len then
    (pageDoneEvents len last, stDone st)
  else if o.writeErr then
    let st' := if o.canceledAtErr then st else TStatus.failed
    ([Event.uploadPages off len] ++
      (if o.canceledAtErr then []
       else [Event.cancel, Event.setStatus TStatus.failed]) ++
      pageDoneEvents len last, stDone st')
  else
    ([Event.uploadPages off len] ++ pageDoneEvents len last, stDone st)

/-- Modelled from the spec: ReportChunkDone is implemented by the job part
transfer manager outside this file's source; the spec specifies a single
atomic increment-and-compare, returning is-last exactly when the
post-increment counter equals the total chunk count. -/
def reportChunkDoneSpec (counter total : Nat) : Nat × Bool :=
  (counter + 1, counter + 1 == total)

/-- One chunk step of the block-blob strategy, as consumed by the
sequentialised scheduler run. -/
def blockStep (_data : Nat → Nat) (o : ChunkOracle) (d : Nat × Nat)
    (last : Bool) (st : TStatus) : List Event × TStatus :=
  blockBlobChunk o d.1 d.2 last st

/-- One chunk step of the page-blob strategy. -/
def pageStep (data : Nat → Nat) (o : ChunkOracle) (d : Nat × Nat)
    (last : Bool) (st : TStatus) : List Event × TStatus :=
  pageBlobChunk o d.1 d.2 data last st

/-- Run the scheduled chunks in an arbitrary completion order (the list
argument), threading the shared transfer status.  Because each worker's
single ReportChunkDone call is atomic, any concurrent execution
linearises to some such order, with the worker completing in position k
receiving the coordinator's answer for post-increment value k+1. -/
def runSeq (step : ChunkOracle → Nat × Nat → Bool → TStatus → List Event × TStatus)
    (oracles : Nat → ChunkOracle) (total : Nat) :
    List (Nat × Nat) → Nat → TStatus → List Event
  | [], _, _ => []
  | d :: rest, k, st =>
    let r := step (oracles k) d (reportChunkDoneSpec k total).2 st
    r.1 ++ runSeq step oracles total rest (k + 1) r.2

/-- Inputs of one LocalToBlockBlob invocation together with the oracle
outcomes of its remote calls: the transfer info (source name, source size,
configured block size), the force-write flag, and whether each fallible
step fails. blobExists records a nil error from GetProperties. -/
structure Env where
  source : List Char
  sourceSize : Nat
  blockSize : Nat
  wasCanceled : Bool
  forceWrite : Bool
  blobExists : Bool
  openErr : Bool
  mmapErr : Bool
  pageCreateErr : Bool
  pageTierSome : Bool
  pageTierErr : Bool
  putBlobErr : Bool
  putCanceled : Bool
  putTierSome : Bool
  putTierErr : Bool
  deriving DecidableEq

/-- PutBlobUploadFunc (lines 411-496): one whole-object Upload call, error
handling that sets Failed only when the transfer was not cancelled, the
optional tier set (whose failure sets BlobTierFailure and deletes the
blob, yet is still followed by SetStatus Success), byte accounting,
transfer-done reporting, and the Unmap guarded by SourceSize != 0. -/
def putBlobEvents (e : Env) : List Event :=
  (if e.putBlobErr then
    [Event.putBlob] ++
      (if e.putCanceled then [] else [Event.setStatus TStatus.failed])
   else
    [Event.putBlob] ++
      (if e.putTierSome then
        (if e.putTierErr then
          [Event.setTier, Event.setStatus TStatus.blobTierFailure,
           Event.deleteBlob]
         else [Event.setTier])
       else []) ++
      [Event.setStatus TStatus.success]) ++
  [Event.addBytes e.sourceSize, Event.reportTransferDone] ++
  (if e.sourceSize ≠ 0 then [Event.unmap] else [])

/-- The trace of collaborator calls made by LocalToBlockBlob itself
(lines 58-257): the cancellation fast path, the force-write existence
check, source open and memory map with their failure paths, then the
three-way strategy branch: the page-blob branch with Create, the optional
SetTier (each with its failure path), chunk-count declaration and page
scheduling; the PutBlob path; or the block-blob chunk-count declaration,
scheduling loop and the count-mismatch panic branch. -/
def runLocal (e : Env) : List Event :=
  let S := e.sourceSize
  if e.wasCanceled then
    [Event.addBytes S, Event.reportTransferDone]
  else
    let propsEvts := if e.forceWrite then [] else [Event.getProperties]
    if ¬e.forceWrite ∧ e.blobExists then
      propsEvts ++ [Event.setStatus TStatus.blobAlreadyExists,
        Event.addBytes S, Event.reportTransferDone]
    else if e.openErr then
      propsEvts ++ [Event.openFile, Event.addBytes S,
        Event.setStatus TStatus.failed, Event.reportTransferDone]
    else if 0 < S ∧ e.mmapErr then
      propsEvts ++ [Event.openFile, Event.setStatus TStatus.failed,
        Event.addBytes S, Event.reportTransferDone]
    else if endsWithVhd e.source ∧ S % pageBlobPageBytes = 0 then
      let c := effectivePageChunkSize e.blockSize
      if e.pageCreateErr then
        propsEvts ++ [Event.openFile, Event.pageCreate, Event.cancel,
          Event.setStatus TStatus.failed, Event.reportTransferDone,
          Event.unmap]
      else if e.pageTierSome ∧ e.pageTierErr then
        propsEvts ++ [Event.openFile, Event.pageCreate, Event.setTier,
          Event.cancel, Event.setStatus TStatus.blobTierFailure,
          Event.deleteBlob, Event.reportTransferDone, Event.unmap]
      else
        propsEvts ++ [Event.openFile, Event.pageCreate] ++
        (if e.pageTierSome then [Event.setTier] else []) ++
        [Event.setNumChunks (declaredChunks S c)] ++
        (chunksList S c).map (fun d => Event.scheduleChunk d.1 d.2)
    else if S = 0 ∨ S ≤ e.blockSize then
      propsEvts ++ [Event.openFile] ++ putBlobEvents e
    else
      propsEvts ++ [Event.openFile] ++
      [Event.setNumChunks (declaredChunks S e.blockSize)] ++
      (chunksList S e.blockSize).map (fun d => Event.scheduleChunk d.1 d.2) ++
      (if (chunksList S e.blockSize).length % 2 ^ 32 ≠
          declaredChunks S e.blockSize then [Event.panicCall] else [])

/-- The three upload strategies of the decision at lines 127, 206 and 211. -/
inductive Strategy
  | pageBlob
  | putBlob
  | blockBlob
  deriving DecidableEq

/-- The strategy LocalToBlockBlob selects: the .vhd-and-multiple-of-512
test is made first, then the small-or-empty test, else block blob. -/
def selectStrategy (source : List Char) (S C : Nat) : Strategy :=
  if endsWithVhd source ∧ S % pageBlobPageBytes = 0 then .pageBlob
  else if S = 0 ∨ S ≤ C then .putBlob
  else .blockBlob

/-- How far one LocalToBlockBlob invocation gets: an early return before
any chunk is scheduled, page-blob chunks scheduled, the inline PutBlob
path, or block-blob chunks scheduled. -/
inductive Phase
  | early
  | pageSched
  | putPath
  | blockSched
  deriving DecidableEq

/-- The phase reached, following exactly the guards of runLocal. -/
def phase (e : Env) : Phase :=
  if e.wasCanceled then .early
  else if ¬e.forceWrite ∧ e.blobExists then .early
  else if e.openErr then .early
  else if 0 < e.sourceSize ∧ e.mmapErr then .early
  else if endsWithVhd e.source ∧ e.sourceSize % pageBlobPageBytes = 0 then
    if e.pageCreateErr then .early
    else if e.pageTierSome ∧ e.pageTierErr then .early
    else .pageSched
  else if e.sourceSize = 0 ∨ e.sourceSize ≤ e.blockSize then .putPath
  else .blockSched

/-- The chunk size the reached scheduling loop uses: the page-clamped size
on the page-blob branch, the configured block size otherwise. -/
def effChunkSize (e : Env) : Nat :=
  if endsWithVhd e.source ∧ e.sourceSize % pageBlobPageBytes = 0 then
    effectivePageChunkSize e.blockSize
  else e.blockSize

/-- An Env together with the memory-mapped source bytes and the per-chunk
oracles, indexed by completion position. -/
structure TransferEnv extends Env where
  data : Nat → Nat
  oracles : Nat → ChunkOracle

/-- The whole transfer: the LocalToBlockBlob trace followed by the traces
of all scheduled chunk workers, run in the completion order given by the
list argument (any permutation of the scheduled descriptors), with the
coordinator's total being the declared chunk count. -/
def runTransfer (e : TransferEnv) (order : List (Nat × Nat)) : List Event :=
  runLocal e.toEnv ++
  (match phase e.toEnv with
   | .pageSched =>
     runSeq (pageStep e.data) e.oracles
       (declaredChunks e.sourceSize (effChunkSize e.toEnv)) order 0
       TStatus.started
   | .blockSched =>
     runSeq (blockStep e.data) e.oracles
       (declaredChunks e.sourceSize (effChunkSize e.toEnv)) order 0
       TStatus.started
   | _ => [])

/-- How many Unmap calls the LocalToBlockBlob body itself makes on each of
its paths: one on the page-blob create-failure and tier-set-failure paths,
one on the PutBlob path when the source is nonempty, zero elsewhere. -/
def localUnmaps (e : Env) : Nat :=
  if e.wasCanceled then 0
  else if ¬e.forceWrite ∧ e.blobExists then 0
  else if e.openErr then 0
  else if 0 < e.sourceSize ∧ e.mmapErr then 0
  else if endsWithVhd e.source ∧ e.sourceSize % pageBlobPageBytes = 0 then
    (if e.pageCreateErr then 1
     else if e.pageTierSome ∧ e.pageTierErr then 1
     else 0)
  else if e.sourceSize = 0 ∨ e.sourceSize ≤ e.blockSize then
    (if e.sourceSize ≠ 0 then 1 else 0)
  else 0

/-- The number of Unmap calls the whole transfer makes: zero on paths that
return before the memory map exists, one on every path past it with a
nonempty source, and — the deviation from the claim — also one on the
page-blob create-failure and tier-set-failure paths when the source is
empty (the code calls Unmap on the empty handle there). -/
def expectedUnmaps (e : Env) : Nat :=
  if e.wasCanceled then 0
  else if ¬e.forceWrite ∧ e.blobExists then 0
  else if e.openErr then 0
  else if 0 < e.sourceSize ∧ e.mmapErr then 0
  else if endsWithVhd e.source ∧ e.sourceSize % pageBlobPageBytes = 0 then
    (if e.pageCreateErr then 1
     else if e.pageTierSome ∧ e.pageTierErr then 1
     else if e.sourceSize = 0 then 0
     else 1)
  else if e.sourceSize = 0 ∨ e.sourceSize ≤ e.blockSize then
    (if e.sourceSize ≠ 0 then 1 else 0)
  else 1

/-- A concrete .vhd source name. -/
def aVhd : List Char := ['a', '.', 'v', 'h', 'd']

/-- A chunk oracle on which nothing fails and nothing is cancelled. -/
def oPlain : ChunkOracle :=
  { canceledAtStart := false, writeErr := false, canceledAtErr := false,
    canceledAtLast := false, commitErr := false, tierSome := false,
    tierErr := false }

/-- A chunk oracle whose remote write fails, with no cancellation observed. -/
def oWriteErr : ChunkOracle :=
  { canceledAtStart := false, writeErr := true, canceledAtErr := false,
    canceledAtLast := false, commitErr := false, tierSome := false,
    tierErr := false }

/-- A 512-byte .vhd transfer whose page-blob Create call fails. -/
def envCreateFail : Env :=
  { source := aVhd, sourceSize := 512, blockSize := 512,
    wasCanceled := false, forceWrite := true, blobExists := false,
    openErr := false, mmapErr := false, pageCreateErr := true,
    pageTierSome := false, pageTierErr := false, putBlobErr := false,
    putCanceled := false, putTierSome := false, putTierErr := false }

/-- An empty (0-byte) .vhd transfer whose page-blob Create call fails. -/
def envEmptyVhdCreateFail : Env :=
  { source := aVhd, sourceSize := 0, blockSize := 512,
    wasCanceled := false, forceWrite := true, blobExists := false,
    openErr := false, mmapErr := false, pageCreateErr := true,
    pageTierSome := false, pageTierErr := false, putBlobErr := false,
    putCanceled := false, putTierSome := false, putTierErr := false }

/-- An empty (0-byte) .vhd transfer on which every remote call succeeds. -/
def envEmptyVhd : Env :=
  { source := aVhd, sourceSize := 0, blockSize := 512,
    wasCanceled := false, forceWrite := true, blobExists := false,
    openErr := false, mmapErr := false, pageCreateErr := false,
    pageTierSome := false, pageTierErr := false, putBlobErr := false,
    putCanceled := false, putTierSome := false, putTierErr := false }

/-- A 100-byte non-vhd transfer whose memory map fails. -/
def envMmapFail : Env :=
  { source := ['a'], sourceSize := 100, blockSize := 512,
    wasCanceled := false, forceWrite := true, blobExists := false,
    openErr := false, mmapErr := true, pageCreateErr := false,
    pageTierSome := false, pageTierErr := false, putBlobErr := false,
    putCanceled := false, putTierSome := false, putTierErr := false }

/-- A 10-byte non-vhd transfer with 4-byte chunks, nothing failing. -/
def envBlock10 : TransferEnv :=
  { source := ['a'], sourceSize := 10, blockSize := 4,
    wasCanceled := false, forceWrite := true, blobExists := false,
    openErr := false, mmapErr := false, pageCreateErr := false,
    pageTierSome := false, pageTierErr := false, putBlobErr := false,
    putCanceled := false, putTierSome := false, putTierErr := false,
    data := fun _ => 0, oracles := fun _ => oPlain }

/-! Helper lemmas about the chunk list. -/

lemma ceilDivGo_zero (c : Nat) : ceilDivGo 0 c = 0 := by
  simp [ceilDivGo]

lemma ceilDivGo_step (n c : Nat) (hc : 1 ≤ c) (hn : 1 ≤ n) :
    ceilDivGo n c = ceilDivGo (n - c) c + 1 := by
  rcases Nat.lt_or_ge n c with hnc | hcn
  · have h1 : n - c = 0 := by omega
    rw [h1, ceilDivGo_zero]
    unfold ceilDivGo
    rw [Nat.mod_eq_of_lt hnc, Nat.div_eq_of_lt hnc]
    have hne : (n == 0) = false := by
      simpa using (by omega : n ≠ 0)
    rw [hne]
    simp
  · obtain ⟨m, hm⟩ : ∃ m, n = m + c := ⟨n - c, by omega⟩
    subst hm
    have hsub : m + c - c = m := by omega
    rw [hsub]
    unfold ceilDivGo
    rw [Nat.add_mod_right, Nat.add_div_right _ (by omega)]
    split <;> omega

lemma chunksAux_nil (S c fuel start : Nat) (h : S ≤ start) :
    chunksAux S c fuel start = [] := by
  cases fuel with
  | zero => rfl
  | succ f => simp [chunksAux, Nat.not_lt.mpr h]

lemma chunksAux_length (S c : Nat) (hc : 1 ≤ c) :
    ∀ fuel start, S ≤ start + fuel →
      (chunksAux S c fuel start).length = ceilDivGo (S - start) c := by
  intro fuel
  induction fuel with
  | zero =>
    intro start h
    have h0 : S - start = 0 := by omega
    simp [chunksAux, h0, ceilDivGo_zero]
  | succ f ih =>
    intro start h
    by_cases hs : start < S
    · rw [chunksAux, if_pos hs]
      have hrec := ih (start + c) (by omega)
      simp only [List.length_cons, hrec]
      have hsub : S - (start + c) = S - start - c := by omega
      rw [hsub, ← ceilDivGo_step (S - start) c hc (by omega)]
    · rw [chunksAux, if_neg hs]
      have h0 : S - start = 0 := by omega
      simp [h0, ceilDivGo_zero]

lemma chunksList_length (S c : Nat) (hc : 1 ≤ c) :
    (chunksList S c).length = ceilDivGo S c := by
  have := chunksAux_length S c hc S 0 (by omega)
  simpa [chunksList] using this

lemma chunksAux_sum (S c : Nat) (hc : 1 ≤ c) :
    ∀ fuel start, S ≤ start + fuel →
      ((chunksAux S c fuel start).map Prod.snd).sum = S - start := by
  intro fuel
  induction fuel with
  | zero =>
    intro start h
    simp [chunksAux]
    omega
  | succ f ih =>
    intro start h
    by_cases hs : start < S
    · rw [chunksAux, if_pos hs]
      have hrec := ih (start + c) (by omega)
      simp only [List.map_cons, List.sum_cons, hrec]
      split <;> omega
    · rw [chunksAux, if_neg hs]
      simp
      omega

lemma chunksList_sum (S c : Nat) (hc : 1 ≤ c) :
    ((chunksList S c).map Prod.snd).sum = S := by
  have := chunksAux_sum S c hc S 0 (by omega)
  simpa [chunksList] using this

lemma chunksAux_contiguous (S c : Nat) (hc : 1 ≤ c) :
    ∀ fuel start, S ≤ start + fuel →
      contiguousFromB start (chunksAux S c fuel start) = true := by
  intro fuel
  induction fuel with
  | zero =>
    intro start h
    simp [chunksAux, contiguousFromB]
  | succ f ih =>
    intro start h
    by_cases hs : start < S
    · rw [chunksAux, if_pos hs]
      by_cases hlast : S < start + c
      · have hrest : chunksAux S c f (start + c) = [] :=
          chunksAux_nil S c f (start + c) (by omega)
        simp [contiguousFromB, hrest, hlast]
        omega
      · have hrec := ih (start + c) (by omega)
        simp [contiguousFromB, hlast, hrec]
        omega
    · rw [chunksAux, if_neg hs]
      simp [contiguousFromB]

lemma chunksList_contiguous (S c : Nat) (hc : 1 ≤ c) :
    contiguousFromB 0 (chunksList S c) = true :=
  chunksAux_contiguous S c hc S 0 (by omega)

lemma chunksAux_mem_dvd (S c d : Nat) (hc : 1 ≤ c) (hcd : d ∣ c) (hSd : d ∣ S) :
    ∀ fuel start off len, d ∣ start →
      (off, len) ∈ chunksAux S c fuel start → 0 < len ∧ d ∣ len := by
  intro fuel
  induction fuel with
  | zero =>
    intro start off len _ hmem
    simp [chunksAux] at hmem
  | succ f ih =>
    intro start off len hstart hmem
    rw [chunksAux] at hmem
    by_cases hs : start < S
    · rw [if_pos hs] at hmem
      rcases List.mem_cons.mp hmem with hhead | htail
      · have h1 : off = start ∧ len = if S < start + c then S - start else c := by
          constructor
          · exact congrArg Prod.fst hhead
          · exact congrArg Prod.snd hhead
        obtain ⟨_, h2⟩ := h1
        subst h2
        split
        · exact ⟨by omega, (Nat.dvd_sub' hSd hstart)⟩
        · exact ⟨by omega, hcd⟩
      · exact ih (start + c) off len (Nat.dvd_add hstart hcd) htail
    · rw [if_neg hs] at hmem
      simp at hmem

/-! Counting lemmas for the chunk workers: each worker accounts bytes
exactly once, reports its chunk done exactly once, and runs the epilogue
(unmap, transfer-done report) exactly when it received is-last. -/

lemma blockBlobChunk_countP_unmap (o : ChunkOracle) (off len : Nat)
    (last : Bool) (st : TStatus) :
    ((blockBlobChunk o off len last st).1).countP Event.isUnmap =
      if last then 1 else 0 := by
  cases last <;>
    simp only [blockBlobChunk, transferDoneB] <;>
    split_ifs <;>
    simp_all [List.countP_append, List.countP_cons, Event.isUnmap]

lemma blockBlobChunk_countP_reportDone (o : ChunkOracle) (off len : Nat)
    (last : Bool) (st : TStatus) :
    ((blockBlobChunk o off len last st).1).countP Event.isReportDone =
      if last then 1 else 0 := by
  cases last <;>
    simp only [blockBlobChunk, transferDoneB] <;>
    split_ifs <;>
    simp_all [List.countP_append, List.countP_cons, Event.isReportDone]

lemma blockBlobChunk_countP_chunkDoneLast (o : ChunkOracle) (off len : Nat)
    (last : Bool) (st : TStatus) :
    ((blockBlobChunk o off len last st).1).countP Event.isChunkDoneLast =
      if last then 1 else 0 := by
  cases last <;>
    simp only [blockBlobChunk, transferDoneB] <;>
    split_ifs <;>
    simp_all [List.countP_append, List.countP_cons, Event.isChunkDoneLast]

lemma blockBlobChunk_countP_addBytes (o : ChunkOracle) (off len : Nat)
    (last : Bool) (st : TStatus) :
    ((blockBlobChunk o off len last st).1).countP Event.isAddBytes = 1 := by
  cases last <;>
    simp only [blockBlobChunk, transferDoneB] <;>
    split_ifs <;>
    simp_all [List.countP_append, List.countP_cons, Event.isAddBytes]

lemma pageBlobChunk_countP_unmap (o : ChunkOracle) (off len : Nat)
    (data : Nat → Nat) (last : Bool) (st : TStatus) :
    ((pageBlobChunk o off len data last st).1).countP Event.isUnmap =
      if last then 1 else 0 := by
  cases last <;>
    simp only [pageBlobChunk, pageDoneEvents] <;>
    split_ifs <;>
    simp_all [List.countP_append, List.countP_cons, Event.isUnmap]

lemma pageBlobChunk_countP_reportDone (o : ChunkOracle) (off len : Nat)
    (data : Nat → Nat) (last : Bool) (st : TStatus) :
    ((pageBlobChunk o off len data last st).1).countP Event.isReportDone =
      if last then 1 else 0 := by
  cases last <;>
    simp only [pageBlobChunk, pageDoneEvents] <;>
    split_ifs <;>
    simp_all [List.countP_append, List.countP_cons, Event.isReportDone]

lemma pageBlobChunk_countP_chunkDoneLast (o : ChunkOracle) (off len : Nat)
    (data : Nat → Nat) (last : Bool) (st : TStatus) :
    ((pageBlobChunk o off len data last st).1).countP Event.isChunkDoneLast =
      if last then 1 else 0 := by
  cases last <;>
    simp only [pageBlobChunk, pageDoneEvents] <;>
    split_ifs <;>
    simp_all [List.countP_append, List.countP_cons, Event.isChunkDoneLast]

lemma pageBlobChunk_countP_addBytes (o : ChunkOracle) (off len : Nat)
    (data : Nat → Nat) (last : Bool) (st : TStatus) :
    ((pageBlobChunk o off len data last st).1).countP Event.isAddBytes = 1 := by
  cases last <;>
    simp only [pageBlobChunk, pageDoneEvents] <;>
    split_ifs <;>
    simp_all [List.countP_append, List.countP_cons, Event.isAddBytes]

/-- Any chunk-step trace predicate that fires exactly on is-last chunks is
observed exactly once across a whole run when the coordinator total is
reachable: position k receives is-last for post-increment value k+1. -/
lemma runSeq_countP (p : Event → Bool)
    (step : ChunkOracle → Nat × Nat → Bool → TStatus → List Event × TStatus)
    (oracles : Nat → ChunkOracle) (total : Nat)
    (hstep : ∀ o d last st, ((step o d last st).1).countP p =
      if last then 1 else 0) :
    ∀ order k st, (runSeq step oracles total order k st).countP p =
      if k < total ∧ total ≤ k + order.length then 1 else 0 := by
  intro order
  induction order with
  | nil =>
    intro k st
    simp only [runSeq, List.countP_nil, List.length_nil, Nat.add_zero]
    rw [if_neg (by omega : ¬(k < total ∧ total ≤ k))]
  | cons d rest ih =>
    intro k st
    simp only [runSeq, List.countP_append, List.length_cons]
    rw [hstep, ih]
    simp only [reportChunkDoneSpec]
    have hsplit : (if (k + 1 == total) = true then (1 : Nat) else 0)
        = if k + 1 = total then 1 else 0 := by
      by_cases h : k + 1 = total <;> simp [h]
    rw [hsplit]
    split_ifs <;> omega

/-- A predicate that never fires inside a chunk-step trace is never
observed across a whole run. -/
lemma runSeq_countP_zero (p : Event → Bool)
    (step : ChunkOracle → Nat × Nat → Bool → TStatus → List Event × TStatus)
    (oracles : Nat → ChunkOracle) (total : Nat)
    (hstep : ∀ o d last st, ((step o d last st).1).countP p = 0) :
    ∀ order k st, (runSeq step oracles total order k st).countP p = 0 := by
  intro order
  induction order with
  | nil => intro k st; simp [runSeq]
  | cons d rest ih =>
    intro k st
    simp only [runSeq, List.countP_append]
    rw [hstep, ih]

/-! The zero-scan: an int64 word is zero exactly when its 8 bytes are, so
the scan sees a nonzero byte exactly when one lies in the scanned prefix
of 8 * (len / 8) bytes. -/

lemma int64At_eq_zero_iff (data : Nat → Nat) (base : Nat) :
    int64At data base = 0 ↔ ∀ j, j < 8 → data (base + j) = 0 := by
  unfold int64At
  constructor
  · intro h j hj
    interval_cases j <;> (try simp only [Nat.add_zero]) <;> omega
  · intro h
    have h0 := h 0 (by omega)
    have h1 := h 1 (by omega)
    have h2 := h 2 (by omega)
    have h3 := h 3 (by omega)
    have h4 := h 4 (by omega)
    have h5 := h 5 (by omega)
    have h6 := h 6 (by omega)
    have h7 := h 7 (by omega)
    simp only [Nat.add_zero] at h0
    omega

lemma allBytesZero_eq_false_iff (data : Nat → Nat) (off len : Nat) :
    allBytesZero data off len = false ↔
      ∃ i, i < 8 * (len / 8) ∧ data (off + i) ≠ 0 := by
  rw [← Bool.not_eq_true, allBytesZero]
  rw [List.all_eq_true]
  constructor
  · intro h
    push_neg at h
    obtain ⟨i, hi, hword⟩ := h
    rw [List.mem_range] at hi
    have hw : ¬ ∀ j, j < 8 → data (off + 8 * i + j) = 0 := by
      intro hall
      exact hword (by simpa using (int64At_eq_zero_iff data (off + 8 * i)).mpr hall)
    push_neg at hw
    obtain ⟨j, hj, hbyte⟩ := hw
    refine ⟨8 * i + j, by omega, ?_⟩
    have harr : off + (8 * i + j) = off + 8 * i + j := by omega
    rw [harr]
    exact hbyte
  · intro ⟨i, hi, hbyte⟩ h
    have hmem : i / 8 ∈ List.range (len / 8) := by
      rw [List.mem_range]
      omega
    have hword := h (i / 8) hmem
    have hzero : int64At data (off + 8 * (i / 8)) = 0 := by simpa using hword
    rw [int64At_eq_zero_iff] at hzero
    have hb := hzero (i % 8) (by omega)
    have harr : off + 8 * (i / 8) + i % 8 = off + i := by omega
    rw [harr] at hb
    exact hbyte hb

/-- The remote UploadPages call is issued exactly when the scanned prefix
is not all zero (for a chunk whose worker did not observe cancellation
before starting). -/
lemma uploadPages_mem_pageBlobChunk (o : ChunkOracle) (off len : Nat)
    (data : Nat → Nat) (last : Bool) (st : TStatus)
    (h : o.canceledAtStart = false) :
    Event.uploadPages off len ∈ (pageBlobChunk o off len data last st).1 ↔
      allBytesZero data off len = false := by
  simp only [pageBlobChunk, h, Bool.false_eq_true, if_false]
  by_cases hz : allBytesZero data off len
  · rw [if_pos hz]
    constructor
    · intro hmem
      exfalso
      cases last <;> simp [pageDoneEvents] at hmem
    · intro hfalse
      rw [hz] at hfalse
      exact Bool.noConfusion hfalse
  · rw [if_neg hz]
    simp only [Bool.not_eq_true] at hz
    simp only [hz, iff_true]
    split_ifs <;> simp

/-! Counting over the LocalToBlockBlob body. -/

lemma countP_map_eq_zero {α : Type} (f : α → Event) (p : Event → Bool)
    (l : List α) (h : ∀ x, p (f x) = false) :
    (l.map f).countP p = 0 := by
  induction l with
  | nil => rfl
  | cons a t ih => simp [List.countP_cons, h, ih]

lemma countP_unmap_schedule_map (l : List (Nat × Nat)) :
    (l.map (fun d => Event.scheduleChunk d.1 d.2)).countP Event.isUnmap = 0 :=
  countP_map_eq_zero _ _ _ (fun _ => rfl)

lemma countP_panic_schedule_map (l : List (Nat × Nat)) :
    (l.map (fun d => Event.scheduleChunk d.1 d.2)).countP Event.isPanic = 0 :=
  countP_map_eq_zero _ _ _ (fun _ => rfl)

lemma ceilDivGo_pos (s c : Nat) (hc : 1 ≤ c) (hs : 1 ≤ s) :
    1 ≤ ceilDivGo s c := by
  unfold ceilDivGo
  split
  · rename_i h
    have hdvd : c ∣ s := Nat.dvd_of_mod_eq_zero (by simpa using h)
    exact Nat.div_pos (Nat.le_of_dvd (by omega) hdvd) (by omega)
  · exact Nat.le_add_left 1 _

set_option maxHeartbeats 2000000 in
lemma runLocal_countP_unmap (e : Env) :
    (runLocal e).countP Event.isUnmap = localUnmaps e := by
  simp only [runLocal, putBlobEvents, apply_ite (List.countP Event.isUnmap),
    List.countP_append, List.countP_cons, List.countP_nil,
    countP_unmap_schedule_map, Event.isUnmap]
  unfold localUnmaps
  split_ifs <;> simp_all

set_option maxHeartbeats 2000000 in
lemma runLocal_countP_panic (e : Env) (hC : 1 ≤ e.blockSize) :
    (runLocal e).countP Event.isPanic = 0 := by
  have hmod : (chunksList e.sourceSize e.blockSize).length % 2 ^ 32 =
      declaredChunks e.sourceSize e.blockSize := by
    rw [chunksList_length _ _ hC]
    rfl
  simp only [runLocal, putBlobEvents, apply_ite (List.countP Event.isPanic),
    List.countP_append, List.countP_cons, List.countP_nil,
    countP_panic_schedule_map, Event.isPanic]
  split_ifs <;> simp_all

lemma blockBlobChunk_sumBytes (o : ChunkOracle) (off len : Nat)
    (last : Bool) (st : TStatus) :
    sumBytes ((blockBlobChunk o off len last st).1) = len := by
  cases last <;>
    simp only [blockBlobChunk, transferDoneB] <;>
    split_ifs <;>
    simp_all [sumBytes]

lemma pageBlobChunk_sumBytes (o : ChunkOracle) (off len : Nat)
    (data : Nat → Nat) (last : Bool) (st : TStatus) :
    sumBytes ((pageBlobChunk o off len data last st).1) = len := by
  cases last <;>
    simp only [pageBlobChunk, pageDoneEvents] <;>
    split_ifs <;>
    simp_all [sumBytes]

/-! Claim theorems. -/

/-- Claim C2, counterexample: a one-byte page chunk whose single byte is
nonzero never triggers the remote UploadPages call, because the scan
inspects only len / 8 = 0 words; the claim says any nonzero byte always
triggers the remote write. -/
theorem C2_counterexample :
    oPlain.canceledAtStart = false ∧
    (fun _ => 1 : Nat → Nat) 0 ≠ 0 ∧ 0 < 1 ∧
    Event.uploadPages 0 1 ∉
      (pageBlobChunk oPlain 0 1 (fun _ => 1) false TStatus.started).1 := by
  refine ⟨rfl, by norm_num, by norm_num, ?_⟩
  decide

/-- Claim C2 (amended): the page-blob chunk worker issues the remote
UploadPages call if and only if at least one byte among the first
8 * (len / 8) bytes of the chunk is nonzero; in particular, when the
length is a multiple of the 8-byte stride, it does so if and only if any
byte of the chunk is nonzero. -/
theorem C2_zero_skip_scanned_prefix (o : ChunkOracle) (off len : Nat)
    (data : Nat → Nat) (last : Bool) (st : TStatus)
    (h : o.canceledAtStart = false) :
    (Event.uploadPages off len ∈ (pageBlobChunk o off len data last st).1 ↔
      ∃ i, i < 8 * (len / 8) ∧ data (off + i) ≠ 0) ∧
    (len % 8 = 0 →
      (Event.uploadPages off len ∈ (pageBlobChunk o off len data last st).1 ↔
        ∃ i, i < len ∧ data (off + i) ≠ 0)) := by
  have hmain := (uploadPages_mem_pageBlobChunk o off len data last st h).trans
    (allBytesZero_eq_false_iff data off len)
  refine ⟨hmain, fun h8 => ?_⟩
  rw [hmain]
  have hlen : 8 * (len / 8) = len := by omega
  rw [hlen]

/-- Claim C2, witness: at chunk length 8 the theorem applies with a
concrete oracle and data. -/
theorem C2_zero_skip_scanned_prefix_witness :
    (Event.uploadPages 0 8 ∈
        (pageBlobChunk oPlain 0 8 (fun _ => 1) false TStatus.started).1 ↔
      ∃ i, i < 8 * (8 / 8) ∧ (fun _ => 1 : Nat → Nat) (0 + i) ≠ 0) ∧
    (8 % 8 = 0 →
      (Event.uploadPages 0 8 ∈
          (pageBlobChunk oPlain 0 8 (fun _ => 1) false TStatus.started).1 ↔
        ∃ i, i < 8 ∧ (fun _ => 1 : Nat → Nat) (0 + i) ≠ 0)) :=
  C2_zero_skip_scanned_prefix oPlain 0 8 (fun _ => 1) false TStatus.started rfl

/-- Claim C3, counterexample: an empty source named a.vhd satisfies
S = 0, yet the planner selects the page-blob strategy, not the
whole-object PutBlob strategy, because the .vhd test is made first. -/
theorem C3_counterexample :
    ((0 : Nat) = 0 ∨ (0 : Nat) ≤ 100) ∧
    selectStrategy aVhd 0 100 ≠ Strategy.putBlob := by
  refine ⟨Or.inl rfl, ?_⟩
  decide

/-- Claim C3 (amended): if S = 0 or S <= C, and the transfer is not
eligible for the page-blob branch (source ending in .vhd with S a
multiple of 512) — which is tested first — then the planner selects the
single whole-object upload strategy. -/
theorem C3_small_source_selects_put_blob (src : List Char) (S C : Nat)
    (hsmall : S = 0 ∨ S ≤ C)
    (hnotpage : ¬(endsWithVhd src = true ∧ S % pageBlobPageBytes = 0)) :
    selectStrategy src S C = Strategy.putBlob := by
  unfold selectStrategy
  rw [if_neg hnotpage, if_pos hsmall]

/-- Claim C3, witness: a non-vhd empty source takes the PutBlob path. -/
theorem C3_small_source_selects_put_blob_witness :
    selectStrategy ['a'] 0 100 = Strategy.putBlob :=
  C3_small_source_selects_put_blob ['a'] 0 100 (Or.inl rfl) (by decide)

/-- Claim C4, code-bug evidence: a page-blob transfer whose last chunk's
UploadPages call fails sets the status to Failed, then pageDone
unconditionally overwrites it with Success, and the subsequent
status-is-negative cleanup branch never fires, so the partially written
page blob is never deleted.  The full trace at this failing input, in
program order. -/
theorem C4_failed_overwritten_by_success :
    (pageBlobChunk oWriteErr 0 8 (fun _ => 1) true TStatus.started).1 =
      [Event.uploadPages 0 8, Event.cancel, Event.setStatus TStatus.failed,
       Event.addBytes 8, Event.reportChunkDone true,
       Event.setStatus TStatus.success, Event.unmap,
       Event.reportTransferDone] ∧
    Event.deleteBlob ∉
      (pageBlobChunk oWriteErr 0 8 (fun _ => 1) true TStatus.started).1 ∧
    (pageBlobChunk oWriteErr 0 8 (fun _ => 1) true TStatus.started).2 =
      TStatus.success := by
  refine ⟨?_, ?_, ?_⟩ <;> decide

/-- Claim C8, counterexample: for configured chunk size 1000 (not a
multiple of 512) the code substitutes the 4 MB default, whereas the claim
prescribes min(1000, max) rounded down to 512; in particular the result
exceeds the configured size. -/
theorem C8_counterexample :
    effectivePageChunkSize 1000 ≠ specPageChunkSize 1000 ∧
    1000 < effectivePageChunkSize 1000 := by
  refine ⟨?_, ?_⟩ <;> decide

/-- Claim C8 (amended): the effective page chunk size is the configured
size C when C is at most 4 MB and a multiple of 512, and the 4 MB default
otherwise (not a rounding-down of C); it is always a positive multiple of
512 and never exceeds the 4 MB maximum, but it can exceed C. -/
theorem C8_page_chunk_size_clamp (c : Nat) (hc : 1 ≤ c) :
    effectivePageChunkSize c =
      (if c ≤ defaultPageBlobChunkSize ∧ c % pageBlobPageBytes = 0 then c
       else defaultPageBlobChunkSize) ∧
    effectivePageChunkSize c % pageBlobPageBytes = 0 ∧
    0 < effectivePageChunkSize c ∧
    effectivePageChunkSize c ≤ defaultPageBlobChunkSize := by
  unfold effectivePageChunkSize defaultPageBlobChunkSize pageBlobPageBytes
  refine ⟨?_, ?_, ?_, ?_⟩ <;> split_ifs <;> omega

/-- Claim C8, witness: at the configured size 1024 the clamp keeps the
value. -/
theorem C8_page_chunk_size_clamp_witness :
    effectivePageChunkSize 1024 =
      (if 1024 ≤ defaultPageBlobChunkSize ∧ 1024 % pageBlobPageBytes = 0
       then 1024 else defaultPageBlobChunkSize) ∧
    effectivePageChunkSize 1024 % pageBlobPageBytes = 0 ∧
    0 < effectivePageChunkSize 1024 ∧
    effectivePageChunkSize 1024 ≤ defaultPageBlobChunkSize :=
  C8_page_chunk_size_clamp 1024 (by norm_num)

/-- Claim C9 (confirmed): on the page-blob branch (vhd source, size a
positive multiple of 512, positive configured chunk size) every scheduled
chunk length is a positive multiple of 512, hence of 8, so the 8-byte
stride scan, which inspects 8 * (len / 8) bytes, covers every byte of
every chunk reachable in this program. -/
theorem C9_page_chunks_are_page_multiples (src : List Char) (S C : Nat)
    (hvhd : endsWithVhd src = true) (hS : S % pageBlobPageBytes = 0)
    (hSpos : 1 ≤ S) (hC : 1 ≤ C) :
    ∀ off len, (off, len) ∈ chunksList S (effectivePageChunkSize C) →
      0 < len ∧ len % 512 = 0 ∧ len % 8 = 0 ∧ 8 * (len / 8) = len := by
  intro off len hmem
  have hc512 : effectivePageChunkSize C % 512 = 0 := by
    unfold effectivePageChunkSize defaultPageBlobChunkSize pageBlobPageBytes
    split_ifs <;> omega
  have hcpos : 1 ≤ effectivePageChunkSize C := by
    unfold effectivePageChunkSize defaultPageBlobChunkSize pageBlobPageBytes
    split_ifs <;> omega
  have hcdvd : 512 ∣ effectivePageChunkSize C := Nat.dvd_of_mod_eq_zero hc512
  have hSdvd : 512 ∣ S := by
    apply Nat.dvd_of_mod_eq_zero
    simpa [pageBlobPageBytes] using hS
  unfold chunksList at hmem
  obtain ⟨hpos, hdvd⟩ := chunksAux_mem_dvd S (effectivePageChunkSize C) 512
    hcpos hcdvd hSdvd S 0 off len (Nat.dvd_zero 512) hmem
  refine ⟨hpos, ?_, ?_, ?_⟩ <;> omega

/-- Claim C9, witness: a 1024-byte vhd with configured chunk size 1000
yields one 1024-byte chunk, a positive multiple of 512 fully covered by
the stride scan. -/
theorem C9_page_chunks_are_page_multiples_witness :
    0 < 1024 ∧ 1024 % 512 = 0 ∧ 1024 % 8 = 0 ∧ 8 * (1024 / 8) = 1024 :=
  C9_page_chunks_are_page_multiples aVhd 1024 1000 (by decide) (by decide)
    (by norm_num) (by norm_num) 0 1024 (by decide)

/-- Claim C10 (confirmed): for a 0-byte source ending in .vhd, when the
transfer is not pre-cancelled and the existence check, open, Create and
tier-set all let it proceed, LocalToBlockBlob declares 0 chunks, schedules
none, and returns without reporting the transfer done or setting any
status: the transfer is never reported done. -/
theorem C10_empty_vhd_never_reported_done (e : Env)
    (hvhd : endsWithVhd e.source = true)
    (hS : e.sourceSize = 0)
    (hcancel : e.wasCanceled = false)
    (hnx : e.forceWrite = true ∨ e.blobExists = false)
    (hopen : e.openErr = false)
    (hcreate : e.pageCreateErr = false)
    (htier : e.pageTierSome = false ∨ e.pageTierErr = false)
    (hC : 1 ≤ e.blockSize) :
    Event.setNumChunks 0 ∈ runLocal e ∧
    (runLocal e).countP Event.isSchedule = 0 ∧
    (runLocal e).countP Event.isReportDone = 0 ∧
    (runLocal e).countP Event.isSetStatus = 0 := by
  have hnum : declaredChunks 0 (effectivePageChunkSize e.blockSize) = 0 := by
    simp [declaredChunks, ceilDivGo]
  have hlist : chunksList 0 (effectivePageChunkSize e.blockSize) = [] := rfl
  rcases hnx with hf | hb <;> rcases htier with ht | ht <;>
    cases hfw : e.forceWrite <;> cases hpt : e.pageTierSome <;>
      simp_all [runLocal, pageBlobPageBytes, List.countP_append,
        List.countP_cons, Event.isSchedule, Event.isReportDone,
        Event.isSetStatus]

/-- Claim C10, witness: the concrete empty vhd environment. -/
theorem C10_empty_vhd_never_reported_done_witness :
    Event.setNumChunks 0 ∈ runLocal envEmptyVhd ∧
    (runLocal envEmptyVhd).countP Event.isSchedule = 0 ∧
    (runLocal envEmptyVhd).countP Event.isReportDone = 0 ∧
    (runLocal envEmptyVhd).countP Event.isSetStatus = 0 :=
  C10_empty_vhd_never_reported_done envEmptyVhd (by decide) rfl rfl
    (Or.inl rfl) rfl rfl (Or.inl rfl) (by decide)

/-- Claim C1 (confirmed): in any completion order of N >= 1 chunks, with
the coordinator modelled from the spec as an atomic increment-and-compare
(reportChunkDoneSpec, implemented in the job part manager outside this
source file), exactly one chunk observes is-last (exactly one
reportChunkDone-true event appears in the trace) and exactly one epilogue
runs (exactly one ReportTransferDone event appears), for both the
block-blob and the page-blob chunk workers. -/
theorem C1_exactly_one_last_one_epilogue (data : Nat → Nat)
    (oracles : Nat → ChunkOracle) (order : List (Nat × Nat)) (N : Nat)
    (st : TStatus) (hlen : order.length = N) (hN : 1 ≤ N) :
    (runSeq (blockStep data) oracles N order 0 st).countP
      Event.isChunkDoneLast = 1 ∧
    (runSeq (blockStep data) oracles N order 0 st).countP
      Event.isReportDone = 1 ∧
    (runSeq (pageStep data) oracles N order 0 st).countP
      Event.isChunkDoneLast = 1 ∧
    (runSeq (pageStep data) oracles N order 0 st).countP
      Event.isReportDone = 1 := by
  have hb1 : ∀ o d last stx, ((blockStep data o d last stx).1).countP
      Event.isChunkDoneLast = if last then 1 else 0 := by
    intro o d last stx
    simpa [blockStep] using
      blockBlobChunk_countP_chunkDoneLast o d.1 d.2 last stx
  have hb2 : ∀ o d last stx, ((blockStep data o d last stx).1).countP
      Event.isReportDone = if last then 1 else 0 := by
    intro o d last stx
    simpa [blockStep] using
      blockBlobChunk_countP_reportDone o d.1 d.2 last stx
  have hp1 : ∀ o d last stx, ((pageStep data o d last stx).1).countP
      Event.isChunkDoneLast = if last then 1 else 0 := by
    intro o d last stx
    simpa [pageStep] using
      pageBlobChunk_countP_chunkDoneLast o d.1 d.2 data last stx
  have hp2 : ∀ o d last stx, ((pageStep data o d last stx).1).countP
      Event.isReportDone = if last then 1 else 0 := by
    intro o d last stx
    simpa [pageStep] using
      pageBlobChunk_countP_reportDone o d.1 d.2 data last stx
  have hcond : 0 < N ∧ N ≤ 0 + order.length := ⟨hN, by omega⟩
  rw [runSeq_countP _ _ _ _ hb1, runSeq_countP _ _ _ _ hb2,
    runSeq_countP _ _ _ _ hp1, runSeq_countP _ _ _ _ hp2, if_pos hcond]
  exact ⟨rfl, rfl, rfl, rfl⟩

/-- Claim C1, witness: three one-byte chunks completing in some order. -/
theorem C1_exactly_one_last_one_epilogue_witness :
    (runSeq (blockStep (fun _ => 0)) (fun _ => oPlain) 3
      [(0, 1), (1, 1), (2, 1)] 0 TStatus.started).countP
      Event.isChunkDoneLast = 1 ∧
    (runSeq (blockStep (fun _ => 0)) (fun _ => oPlain) 3
      [(0, 1), (1, 1), (2, 1)] 0 TStatus.started).countP
      Event.isReportDone = 1 ∧
    (runSeq (pageStep (fun _ => 0)) (fun _ => oPlain) 3
      [(0, 1), (1, 1), (2, 1)] 0 TStatus.started).countP
      Event.isChunkDoneLast = 1 ∧
    (runSeq (pageStep (fun _ => 0)) (fun _ => oPlain) 3
      [(0, 1), (1, 1), (2, 1)] 0 TStatus.started).countP
      Event.isReportDone = 1 :=
  C1_exactly_one_last_one_epilogue (fun _ => 0) (fun _ => oPlain)
    [(0, 1), (1, 1), (2, 1)] 3 TStatus.started rfl (by norm_num)

/-- Claim C6, counterexample: at S = 2^32 and C = 1 the loop schedules
2^32 chunks but the declared count passed to SetNumberOfChunks is the
uint32 truncation 0, so scheduled and declared differ. -/
theorem C6_counterexample :
    (chunksList (2 ^ 32) 1).length ≠ declaredChunks (2 ^ 32) 1 := by
  rw [chunksList_length (2 ^ 32) 1 (by norm_num)]
  decide

/-- Claim C6 (amended): for S, C >= 1 the scheduled chunk descriptors
start at offset 0, are contiguous and non-overlapping with positive
lengths, their lengths sum to S, the scheduled count agrees with the
declared count modulo 2^32 (so the count-mismatch panic branch never
fires, and no panic event ever appears in a LocalToBlockBlob trace), and
the scheduled count equals the declared count whenever ceil(S / C) is
below 2^32 — the uint32 truncation in the declaration is the only
deviation from the original claim. -/
theorem C6_chunk_plan_consistent (S C : Nat) (e : Env)
    (hS : 1 ≤ S) (hC : 1 ≤ C)
    (heS : e.sourceSize = S) (heC : e.blockSize = C) :
    contiguousFromB 0 (chunksList S C) = true ∧
    ((chunksList S C).map Prod.snd).sum = S ∧
    (chunksList S C).length % 2 ^ 32 = declaredChunks S C ∧
    (ceilDivGo S C < 2 ^ 32 →
      (chunksList S C).length = declaredChunks S C) ∧
    (runLocal e).countP Event.isPanic = 0 := by
  refine ⟨chunksList_contiguous S C hC, chunksList_sum S C hC, ?_, ?_, ?_⟩
  · rw [chunksList_length S C hC]
    rfl
  · intro hsmall
    rw [chunksList_length S C hC]
    unfold declaredChunks
    omega
  · exact runLocal_countP_panic e (by omega)

/-- Claim C6, witness: S = 10, C = 4 gives chunks (0,4),(4,4),(8,2). -/
theorem C6_chunk_plan_consistent_witness :
    contiguousFromB 0 (chunksList 10 4) = true ∧
    ((chunksList 10 4).map Prod.snd).sum = 10 ∧
    (chunksList 10 4).length % 2 ^ 32 = declaredChunks 10 4 ∧
    (ceilDivGo 10 4 < 2 ^ 32 →
      (chunksList 10 4).length = declaredChunks 10 4) ∧
    (runLocal envBlock10.toEnv).countP Event.isPanic = 0 :=
  C6_chunk_plan_consistent 10 4 envBlock10.toEnv (by norm_num) (by norm_num)
    rfl rfl

/-- Claim C7 (amended): every pre-chunk failure path of LocalToBlockBlob
(blob already exists, source open failure, memory-map failure, page-blob
create failure, page-blob tier-set failure) reports the transfer done
exactly once, and all of them except the page-blob create and tier-set
failures also account exactly the full source size in bytes — those two
paths account zero bytes, never calling AddToBytesDone.  Per chunk, both
workers account the chunk's bytes exactly once on every outcome, and a
last block-blob chunk reports the transfer done exactly once even when
the commit fails. -/
theorem C7_failure_paths_report_and_account (e : Env) :
    (e.wasCanceled = false → e.forceWrite = false → e.blobExists = true →
      (runLocal e).countP Event.isReportDone = 1 ∧
      sumBytes (runLocal e) = e.sourceSize) ∧
    (e.wasCanceled = false → (e.forceWrite = true ∨ e.blobExists = false) →
      e.openErr = true →
      (runLocal e).countP Event.isReportDone = 1 ∧
      sumBytes (runLocal e) = e.sourceSize) ∧
    (e.wasCanceled = false → (e.forceWrite = true ∨ e.blobExists = false) →
      e.openErr = false → 0 < e.sourceSize → e.mmapErr = true →
      (runLocal e).countP Event.isReportDone = 1 ∧
      sumBytes (runLocal e) = e.sourceSize) ∧
    (e.wasCanceled = false → (e.forceWrite = true ∨ e.blobExists = false) →
      e.openErr = false → e.mmapErr = false →
      endsWithVhd e.source = true → e.sourceSize % pageBlobPageBytes = 0 →
      e.pageCreateErr = true →
      (runLocal e).countP Event.isReportDone = 1 ∧
      sumBytes (runLocal e) = 0) ∧
    (e.wasCanceled = false → (e.forceWrite = true ∨ e.blobExists = false) →
      e.openErr = false → e.mmapErr = false →
      endsWithVhd e.source = true → e.sourceSize % pageBlobPageBytes = 0 →
      e.pageCreateErr = false → e.pageTierSome = true →
      e.pageTierErr = true →
      (runLocal e).countP Event.isReportDone = 1 ∧
      sumBytes (runLocal e) = 0) ∧
    (∀ o off len last st,
      ((blockBlobChunk o off len last st).1).countP Event.isAddBytes = 1 ∧
      sumBytes ((blockBlobChunk o off len last st).1) = len) ∧
    (∀ o off len dta last st,
      ((pageBlobChunk o off len dta last st).1).countP Event.isAddBytes = 1 ∧
      sumBytes ((pageBlobChunk o off len dta last st).1) = len) ∧
    (∀ o off len st,
      ((blockBlobChunk o off len true st).1).countP Event.isReportDone = 1) := by
  refine ⟨?_, ?_, ?_, ?_, ?_, ?_, ?_, ?_⟩
  · intro h1 h2 h3
    simp_all [runLocal, sumBytes, List.countP_append, List.countP_cons,
      Event.isReportDone]
  · intro h1 h2 h3
    rcases h2 with hf | hb <;> cases hfw : e.forceWrite <;>
      simp_all [runLocal, sumBytes, List.countP_append, List.countP_cons,
        Event.isReportDone]
  · intro h1 h2 h3 h4 h5
    rcases h2 with hf | hb <;> cases hfw : e.forceWrite <;>
      simp_all [runLocal, sumBytes, List.countP_append, List.countP_cons,
        Event.isReportDone]
  · intro h1 h2 h3 h4 h5 h6 h7
    rcases h2 with hf | hb <;> cases hfw : e.forceWrite <;>
      simp_all [runLocal, sumBytes, List.countP_append, List.countP_cons,
        Event.isReportDone]
  · intro h1 h2 h3 h4 h5 h6 h7 h8 h9
    rcases h2 with hf | hb <;> cases hfw : e.forceWrite <;>
      simp_all [runLocal, sumBytes, List.countP_append, List.countP_cons,
        Event.isReportDone]
  · intro o off len last st
    exact ⟨blockBlobChunk_countP_addBytes o off len last st,
      blockBlobChunk_sumBytes o off len last st⟩
  · intro o off len dta last st
    exact ⟨pageBlobChunk_countP_addBytes o off len dta last st,
      pageBlobChunk_sumBytes o off len dta last st⟩
  · intro o off len st
    simpa using blockBlobChunk_countP_reportDone o off len true st

/-- Claim C7, witness: the memory-map failure path at a concrete
environment reports done once and accounts the full 100 bytes. -/
theorem C7_failure_paths_report_and_account_witness :
    (runLocal envMmapFail).countP Event.isReportDone = 1 ∧
    sumBytes (runLocal envMmapFail) = envMmapFail.sourceSize :=
  (C7_failure_paths_report_and_account envMmapFail).2.2.1 rfl (Or.inl rfl)
    rfl (by decide) rfl

/-- Claim C7, counterexample: on the page-blob create-failure path the
engine reports the transfer done but never calls AddToBytesDone at all —
the bytes-accounting call the claim requires is absent (source size 512,
bytes accounted 0). -/
theorem C7_counterexample :
    (runLocal envCreateFail).countP Event.isAddBytes = 0 ∧
    Event.reportTransferDone ∈ runLocal envCreateFail ∧
    envCreateFail.sourceSize = 512 := by
  refine ⟨?_, ?_, ?_⟩ <;> decide

/-- Claim C5, counterexample: for a 0-byte .vhd source no memory mapping
is created, yet on the page-blob create-failure path Unmap is called (on
the empty handle); the claim says Unmap is never called when S = 0. -/
theorem C5_counterexample :
    envEmptyVhdCreateFail.sourceSize = 0 ∧
    Event.unmap ∈ runLocal envEmptyVhdCreateFail := by
  refine ⟨rfl, ?_⟩
  decide

set_option maxHeartbeats 4000000 in
/-- Claim C5 (amended): over the whole transfer — the LocalToBlockBlob
body plus all scheduled chunk workers run in any completion order, with
the coordinator total being the declared chunk count (assumed below its
uint32 truncation bound) — the number of Unmap calls equals
expectedUnmaps: exactly one on every path on which the mapping was
created (S > 0 and the run got past the memory-map step), zero on paths
that return before the mapping exists, and — the deviation forced by the
counterexample — also one on the page-blob create-failure and
tier-set-failure paths when S = 0, where the code unmaps the empty
handle. -/
theorem C5_unmap_count (e : TransferEnv) (order : List (Nat × Nat))
    (hC : 1 ≤ e.blockSize)
    (hperm : order.Perm (chunksList e.sourceSize (effChunkSize e.toEnv)))
    (hsmall : ceilDivGo e.sourceSize (effChunkSize e.toEnv) < 2 ^ 32) :
    (runTransfer e order).countP Event.isUnmap = expectedUnmaps e.toEnv := by
  have hceff : 1 ≤ effChunkSize e.toEnv := by
    unfold effChunkSize effectivePageChunkSize defaultPageBlobChunkSize
      pageBlobPageBytes
    split_ifs <;> omega
  have hlen : order.length = ceilDivGo e.sourceSize (effChunkSize e.toEnv) := by
    rw [hperm.length_eq, chunksList_length _ _ hceff]
  have hdecl : declaredChunks e.sourceSize (effChunkSize e.toEnv) =
      ceilDivGo e.sourceSize (effChunkSize e.toEnv) := by
    unfold declaredChunks
    omega
  have hblock := runSeq_countP Event.isUnmap (blockStep e.data) e.oracles
    (declaredChunks e.sourceSize (effChunkSize e.toEnv))
    (fun o d last st => by
      simpa [blockStep] using blockBlobChunk_countP_unmap o d.1 d.2 last st)
    order 0 TStatus.started
  have hpage := runSeq_countP Event.isUnmap (pageStep e.data) e.oracles
    (declaredChunks e.sourceSize (effChunkSize e.toEnv))
    (fun o d last st => by
      simpa [pageStep] using
        pageBlobChunk_countP_unmap o d.1 d.2 e.data last st)
    order 0 TStatus.started
  rcases Nat.eq_zero_or_pos e.sourceSize with hS0 | hSpos
  · have hceil0 : ceilDivGo e.sourceSize (effChunkSize e.toEnv) = 0 := by
      rw [hS0]
      exact ceilDivGo_zero _
    simp only [runTransfer, List.countP_append, runLocal_countP_unmap]
    unfold phase localUnmaps expectedUnmaps
    split_ifs <;> simp_all [hblock, hpage, hdecl, hlen] <;> omega
  · have hceil1 : 1 ≤ ceilDivGo e.sourceSize (effChunkSize e.toEnv) :=
      ceilDivGo_pos _ _ hceff hSpos
    simp only [runTransfer, List.countP_append, runLocal_countP_unmap]
    unfold phase localUnmaps expectedUnmaps
    split_ifs <;> simp_all [hblock, hpage, hdecl, hlen] <;> omega

/-- Claim C5, witness: the 10-byte, 4-byte-chunk block-blob transfer with
three chunks completing in scheduling order unmaps exactly once. -/
theorem C5_unmap_count_witness :
    (runTransfer envBlock10 [(0, 4), (4, 4), (8, 2)]).countP Event.isUnmap =
      expectedUnmaps envBlock10.toEnv :=
  C5_unmap_count envBlock10 [(0, 4), (4, 4), (8, 2)] (by decide)
    (by decide) (by decide)

end AzCopy
